import Mathlib

/-!
Verification of the IMUVideo-Application fusion/time-sync core.

Shallow embedding conventions:
* JavaScript numbers are modelled as exact rationals (`ℚ`) in the purely
  arithmetical modules (session-viewer controller, time-sync) and as reals
  (`ℝ`) in the modules that use `Math.sqrt` / `Math.acos` / `Math.PI`
  (fusion processor, arm-angle analyser).
* A CSV cell whose `Number(...)` conversion is not finite (`NaN`,
  `±Infinity`, non-numeric text) is modelled as `none : Option ℚ`; a finite
  numeric value `v` is `some v`.  `safeNum(x, null)` is then the identity on
  this representation, and `Number(x) || 0` is `Option.getD x 0` (for a
  finite number `v`, `v || 0` differs from `v` only when `v = 0`, where both
  sides are `0`).
* In-place array mutation is modelled by returning the updated list.
-/

namespace SessionViewerController

/-- A CSV cell of the time column: `none` models a value whose `Number(...)`
conversion is non-finite. -/
abbrev Cell := Option ℚ

/-- One CSV row. -/
abbrev Row := List Cell

/-- `Number(rows[i]?.[timeIdx])` as an `Option ℚ`: out-of-range access gives
`undefined` (hence `NaN`, i.e. `none`). -/
def getCell : Row → ℕ → Option ℚ
  | [], _ => none
  | c :: _, 0 => c
  | _ :: rest, n + 1 => getCell rest n

/-- Loop state of the statistics pass of `detectTimeScaleFactor`
(`dts`, `prev`, `firstVal`, `lastVal`, `validCount`). -/
structure ScanState where
  dts : List ℚ
  prev : Option ℚ
  firstVal : Option ℚ
  lastVal : Option ℚ
  validCount : ℕ
deriving Repr, DecidableEq

/-- One iteration of the statistics loop of `detectTimeScaleFactor`:
skip non-finite values; record first/last valid value and the count; push
the delta to the previous valid value when the row index is `< 201` and the
delta is positive. -/
def scanRow (timeIdx : ℕ) (st : ScanState) (ir : ℕ × Row) : ScanState :=
  match getCell ir.2 timeIdx with
  | none => st
  | some v =>
    { dts := match st.prev with
        | some p => if ir.1 < 201 ∧ 0 < v - p then st.dts ++ [v - p] else st.dts
        | none => st.dts
      prev := some v
      firstVal := match st.firstVal with
        | none => some v
        | some f => some f
      lastVal := some v
      validCount := st.validCount + 1 }

/-- `[(i, rows[i]), ...]` starting at index `i0` (the loop counter of the
statistics pass). -/
def enumFromIdx : ℕ → List Row → List (ℕ × Row)
  | _, [] => []
  | i, r :: rest => (i, r) :: enumFromIdx (i + 1) rest

/-- The statistics pass of `detectTimeScaleFactor` over all rows. -/
def collectTimeStats (rows : List Row) (timeIdx : ℕ) : ScanState :=
  (enumFromIdx 0 rows).foldl (scanRow timeIdx) ⟨[], none, none, none, 0⟩

/-- `dts.sort(...); medianDt = dts[Math.floor(dts.length / 2)]` of
`detectTimeScaleFactor` (meaningful once `dts` is non-empty). -/
def medianDelta (rows : List Row) (timeIdx : ℕ) : ℚ :=
  let st := collectTimeStats rows timeIdx
  (List.insertionSort (· ≤ ·) st.dts).getD (st.dts.length / 2) 0

/-- `rawSpan = lastVal - firstVal` of `detectTimeScaleFactor`. -/
def rawSpanOf (rows : List Row) (timeIdx : ℕ) : ℚ :=
  let st := collectTimeStats rows timeIdx
  st.lastVal.getD 0 - st.firstVal.getD 0

/-- The exponent loop `for (let exp = 9; exp >= -3; exp--)`. -/
def expRange : List ℤ := [9, 8, 7, 6, 5, 4, 3, 2, 1, 0, -1, -2, -3]

/-- The candidate loop of `detectTimeScaleFactor`: for each exponent the
candidate scale is `Math.pow(10, -exp)`; a candidate is skipped unless the
scaled median delta lies in `[0.0005 s, 2 s]`, the scaled span is positive,
and the implied rate `validCount / durSec` lies in `[1 Hz, 500 Hz]`; the
first surviving scale is returned. -/
def scanScales (medianDt rawSpan : ℚ) (validCount : ℕ) : List ℤ → Option ℚ
  | [] => none
  | e :: rest =>
    let scale : ℚ := (10 : ℚ) ^ (-e)
    let dtSec := medianDt * scale
    if dtSec < 1 / 2000 ∨ 2 < dtSec then scanScales medianDt rawSpan validCount rest
    else
      let durSec := rawSpan * scale
      if durSec ≤ 0 then scanScales medianDt rawSpan validCount rest
      else
        let rate := (validCount : ℚ) / durSec
        if 1 ≤ rate ∧ rate ≤ 500 then some scale
        else scanScales medianDt rawSpan validCount rest

/-- `detectTimeScaleFactor(rows, timeIdx)` from
`session-viewer-controller.js`: median inter-sample delta statistics, the
power-of-ten candidate loop, and the `0.01 / medianDt` (100 Hz) fallback;
degenerate inputs (no positive delta, no valid first/last value, or a
non-positive raw span) return `1.0`. -/
def detectTimeScaleFactor (rows : List Row) (timeIdx : ℕ) : ℚ :=
  let st := collectTimeStats rows timeIdx
  if st.dts = [] ∨ st.firstVal = none ∨ st.lastVal = none then 1
  else if rawSpanOf rows timeIdx ≤ 0 then 1
  else
    match scanScales (medianDelta rows timeIdx) (rawSpanOf rows timeIdx) st.validCount expRange with
    | some s => s
    | none => (1 / 100) / medianDelta rows timeIdx

/-- Acceptance predicate of the specification for one candidate scale:
the scaled median delta lies in `[0.5 ms, 2 s]` and the implied rate
`validCount / (rawSpan · scale)` lies in `[1 Hz, 500 Hz]`. -/
def acceptScale (medianDt rawSpan : ℚ) (validCount : ℕ) (scale : ℚ) : Bool :=
  decide (1 / 2000 ≤ medianDt * scale) && decide (medianDt * scale ≤ 2) &&
    decide (1 ≤ (validCount : ℚ) / (rawSpan * scale)) &&
    decide ((validCount : ℚ) / (rawSpan * scale) ≤ 500)

/-- The ordered candidate scales `Math.pow(10, -exp)` for `exp` from `9`
down to `-3`: the divisors run from `10^9` down to `10^-3`, i.e. the
multipliers run from `10^-9` up to `10^3`. -/
def candidateScales : List ℚ := expRange.map fun e => (10 : ℚ) ^ (-e)

/-- The record returned by `normalizeTimeColumnInPlace`.  The early-return
objects of the source carry no `scale` property, which is modelled as
`scale = none`. -/
structure NormalizeResult where
  t0 : Option ℚ
  maxT : ℚ
  t0Raw : Option ℚ
  maxTRaw : ℚ
  scale : Option ℚ
deriving Repr, DecidableEq

/-- The per-row rewrite of the loop body of `normalizeTimeColumnInPlace`:
a row whose time cell is non-finite is skipped (`continue`), otherwise the
time cell is overwritten with `(tRaw - t0Raw) * scale` (the source stores
`String(tScaled)`, which later re-parses to the same number). -/
def rewriteRow (timeIdx : ℕ) (t0Raw scale : ℚ) (r : Row) : Row :=
  match getCell r timeIdx with
  | none => r
  | some tRaw => r.set timeIdx (some ((tRaw - t0Raw) * scale))

/-- The running maximum `maxTRaw` of `normalizeTimeColumnInPlace`
(starts at `0`; only rows with a finite time cell contribute). -/
def maxTRawOf (rows : List Row) (timeIdx : ℕ) (t0Raw : ℚ) : ℚ :=
  rows.foldl
    (fun m r =>
      match getCell r timeIdx with
      | none => m
      | some tRaw => max m (tRaw - t0Raw)) 0

/-- The running maximum `maxT` of `normalizeTimeColumnInPlace`
(starts at `0`; only rows with a finite time cell contribute). -/
def maxTOf (rows : List Row) (timeIdx : ℕ) (t0Raw scale : ℚ) : ℚ :=
  rows.foldl
    (fun m r =>
      match getCell r timeIdx with
      | none => m
      | some tRaw => max m ((tRaw - t0Raw) * scale)) 0

/-- `normalizeTimeColumnInPlace(rows, timeIdx)` from
`session-viewer-controller.js`; the mutated `rows` array is returned
alongside the result record.  Empty input, and input whose first time cell
is non-finite (`safeNum(rows[0]?.[timeIdx], null) == null`), return early
without rewriting and without a scale. -/
def normalizeTimeColumnInPlace : List Row → ℕ → List Row × NormalizeResult
  | [], _ => ([], ⟨none, 0, none, 0, none⟩)
  | r0 :: rest, timeIdx =>
    match getCell r0 timeIdx with
    | none => (r0 :: rest, ⟨none, 0, none, 0, none⟩)
    | some t0Raw =>
      let scale := detectTimeScaleFactor (r0 :: rest) timeIdx
      ((r0 :: rest).map (rewriteRow timeIdx t0Raw scale),
        ⟨some 0, maxTOf (r0 :: rest) timeIdx t0Raw scale, some t0Raw,
          maxTRawOf (r0 :: rest) timeIdx t0Raw, some scale⟩)

/-- `clamp(n, a, b)` from `session-viewer-controller.js`: a non-finite
input (`none`) clamps to `a`, otherwise `Math.min(b, Math.max(a, v))`. -/
def clamp (n : Option ℚ) (a b : ℚ) : ℚ :=
  match n with
  | none => a
  | some v => min b (max a v)

/-- The `imuCursor` state `{ x, minX, maxX }` of the controller. -/
structure ImuCursor where
  x : ℚ
  minX : ℚ
  maxX : ℚ
deriving Repr, DecidableEq

/-- `setImuCursorX(x)`: `imuCursor.x = clamp(Number(x) || 0,
imuCursor.minX || 0, imuCursor.maxX || 0)`.  `Number(x) || 0` maps a
non-finite input to `0` (`NaN || 0` is `0`), which is `Option.getD x 0`
here; `v || 0` on the rational bounds is the identity. -/
def setImuCursorX (st : ImuCursor) (v : Option ℚ) : ImuCursor :=
  { st with x := clamp (some (v.getD 0)) st.minX st.maxX }

/-- The `movesync:imu-timeframe-applied` handler of the controller: it
order-normalizes the received `[start, end]` pair once more, installs it as
the cursor bounds, and re-clamps the cursor into the new bounds. -/
def onImuTimeframeApplied (st : ImuCursor) (s1 s2 : ℚ) : ImuCursor :=
  let a := min s1 s2
  let b := max s1 s2
  { x := clamp (some st.x) a b, minX := a, maxX := b }

end SessionViewerController

namespace TimeSync

/-- The time-sync state of `time-sync.js` (`state.videoMarkerT`,
`state.offset`, `state.t1`, `state.t2`), with `none` modelling `null`.
The IMU marker lives in the viewer and is passed in explicitly. -/
structure SyncState where
  videoMarkerT : Option ℚ
  offset : Option ℚ
  t1 : Option ℚ
  t2 : Option ℚ
deriving Repr, DecidableEq

/-- `markVideo()`: capture the current video playhead when it is finite,
otherwise do nothing. -/
def markVideo (st : SyncState) (currentTime : Option ℚ) : SyncState :=
  match currentTime with
  | none => st
  | some v => { st with videoMarkerT := some v }

/-- `computeOffset()`: requires a finite video marker and a finite IMU
marker; on success stores `offset = videoMarkerT - imuMarker`, otherwise
returns with the state untouched. -/
def computeOffset (st : SyncState) (imuMarker : Option ℚ) : SyncState :=
  match st.videoMarkerT, imuMarker with
  | some v, some m => { st with offset := some (v - m) }
  | some _, none => st
  | none, _ => st

/-- `canApplyTimeframe()`: both bounds finite and distinct. -/
def canApplyTimeframe (st : SyncState) : Bool :=
  st.t1.isSome && st.t2.isSome && decide (st.t1 ≠ st.t2)

/-- `applyTimeframe()`: when enabled, publish the order-normalized pair
`(min t1 t2, max t1 t2)` in the `movesync:imu-timeframe-applied` event,
otherwise do nothing (`none`). -/
def applyTimeframe (st : SyncState) : Option (ℚ × ℚ) :=
  if canApplyTimeframe st then
    some (min (st.t1.getD 0) (st.t2.getD 0), max (st.t1.getD 0) (st.t2.getD 0))
  else none

/-- The video→IMU cursor mapping of `wireVideoImuSync`
(`video-metadata.js`): `imuT = videoT - off` where `off` is the stored
offset when finite, else `0`. -/
def videoToImu (offset : Option ℚ) (videoT : ℚ) : ℚ :=
  videoT - offset.getD 0

/-- The IMU→video mapping of the `movesync:imu-cursor-changed` listener in
`wireVideoImuSync`: `videoT = imuTime + timeSync.offset` (the video element
additionally clamps the applied playhead at `0`, which is not part of the
mapping). -/
def imuToVideo (offset : ℚ) (imuT : ℚ) : ℚ :=
  imuT + offset

end TimeSync


namespace Movenet

/-- A quaternion `[w, x, y, z]` of the arm-angle module in `movenet.js`. -/
structure Quat where
  w : ℝ
  x : ℝ
  y : ℝ
  z : ℝ

noncomputable section

namespace Quat

/-- `Quat.conjugate([w, x, y, z]) = [w, -x, -y, -z]`. -/
def conjugate (q : Quat) : Quat := ⟨q.w, -q.x, -q.y, -q.z⟩

/-- Hamilton product `Quat.multiply(q1, q2)`. -/
def multiply (a b : Quat) : Quat :=
  ⟨a.w * b.w - a.x * b.x - a.y * b.y - a.z * b.z,
    a.w * b.x + a.x * b.w + a.y * b.z - a.z * b.y,
    a.w * b.y - a.x * b.z + a.y * b.w + a.z * b.x,
    a.w * b.z + a.x * b.y - a.y * b.x + a.z * b.w⟩

/-- `Quat.canonicalize`: flip the sign when `w < 0` so that the scalar part
is non-negative. -/
def canonicalize (q : Quat) : Quat :=
  if q.w < 0 then ⟨-q.w, -q.x, -q.y, -q.z⟩ else q

/-- Elementwise negation: the caller-side `−q` of `relativeAngle(q, −q)`. -/
def neg (q : Quat) : Quat := ⟨-q.w, -q.x, -q.y, -q.z⟩

/-- Squared Euclidean norm `w² + x² + y² + z²` (unit quaternions have
`normSq = 1`). -/
def normSq (q : Quat) : ℝ := q.w ^ 2 + q.x ^ 2 + q.y ^ 2 + q.z ^ 2

end Quat

/-- `clamp(v, min, max) = Math.max(min, Math.min(max, v))` from
`movenet.js`. -/
def clampR (v lo hi : ℝ) : ℝ := max lo (min hi v)

/-- `rad2deg(r) = r * 180 / Math.PI`. -/
def rad2deg (r : ℝ) : ℝ := r * 180 / Real.pi

/-- `Quat.relativeAngleDeg(qA, qB)`: canonicalize both, form
`qRel = qB · conjugate(qA)`, and return `2·acos(clamp(qRel.w, −1, 1))` in
degrees. -/
def relativeAngleDeg (qA qB : Quat) : ℝ :=
  rad2deg (2 * Real.arccos (clampR
    (Quat.multiply (Quat.canonicalize qB) (Quat.conjugate (Quat.canonicalize qA))).w (-1) 1))

/-- The `euler` record `{roll, pitch, yaw}` carried by a fusion
orientation sample. -/
structure EulerAngles where
  roll : ℝ
  pitch : ℝ
  yaw : ℝ

/-- One orientation sample as consumed by `ArmAngleAnalyser` (`.quat` and
the optional `.euler`; `euler ?? null` is `none`). -/
structure Orientation where
  quat : Quat
  euler : Option EulerAngles

/-- Placeholder orientation used only for out-of-range `getD` defaults
(never produced: all accesses are within the truncated length). -/
def Orientation.dummy : Orientation := ⟨⟨0, 0, 0, 0⟩, none⟩

/-- The slice of a `FusionResult` read by `ArmAngleAnalyser`
(`times` and `orientations`). -/
structure FusionData where
  times : List ℝ
  orientations : List Orientation

/-- The `AngleSeries` output of `ArmAngleAnalyser.#compute` (the shoulder
series carries the per-sample Euler triple in degrees, or `null`). -/
structure AngleSeries where
  elbow : List ℝ
  wrist : List ℝ
  shoulder : List (Option EulerAngles)
  times : List ℝ

/-- `n = Math.min(s.orientations.length, e.orientations.length,
w.orientations.length, s.times.length)` of `ArmAngleAnalyser.#compute`. -/
def armN (s e w : FusionData) : ℕ :=
  min (min (min s.orientations.length e.orientations.length)
    w.orientations.length) s.times.length

/-- Euler radians → degrees conversion of the shoulder output record. -/
def eulerDeg (e : EulerAngles) : EulerAngles :=
  ⟨rad2deg e.roll, rad2deg e.pitch, rad2deg e.yaw⟩

/-- The loop body of `ArmAngleAnalyser.#compute` (the success case):
`elbow[i] = relativeAngleDeg(shoulderQuat[i], elbowQuat[i])`,
`wrist[i] = relativeAngleDeg(elbowQuat[i], wristQuat[i])`,
`shoulder[i]` is the shoulder Euler triple in degrees (or `null`), and
`times` is the shoulder time list truncated to `n`. -/
def computeOk (s e w : FusionData) : AngleSeries :=
  let n := armN s e w
  { elbow := (List.range n).map fun i =>
      relativeAngleDeg (s.orientations.getD i Orientation.dummy).quat
        (e.orientations.getD i Orientation.dummy).quat
    wrist := (List.range n).map fun i =>
      relativeAngleDeg (e.orientations.getD i Orientation.dummy).quat
        (w.orientations.getD i Orientation.dummy).quat
    shoulder := (List.range n).map fun i =>
      ((s.orientations.getD i Orientation.dummy).euler).map eulerDeg
    times := s.times.take n }

/-- `ArmAngleAnalyser.#compute`: `assert(n > 0, "No samples available to
compute angles.")` throws on an empty truncated length, otherwise the
series above is produced.  (The per-sample quaternion-shape asserts always
hold in this typed model.) -/
def compute (s e w : FusionData) : Except String AngleSeries :=
  if armN s e w = 0 then Except.error "No samples available to compute angles."
  else Except.ok (computeOk s e w)

/-- The per-joint statistics record of `statsOf`; the `NaN` fields of the
empty-input case are modelled as `none`. -/
structure AngleStats where
  mean : Option ℝ
  minV : Option ℝ
  maxV : Option ℝ
  range : Option ℝ

/-- `statsOf(arr)` from `movenet.js`: `{NaN, NaN, NaN, NaN}` on an empty
array; otherwise running sum/min/max (the `Infinity`/`-Infinity` seeds of
the source reduce, for a non-empty array, to folding from the first
element). -/
def statsOf : List ℝ → AngleStats
  | [] => ⟨none, none, none, none⟩
  | v :: rest =>
    let sum := (v :: rest).foldl (· + ·) 0
    let mn := rest.foldl min v
    let mx := rest.foldl max v
    ⟨some (sum / ((v :: rest).length : ℝ)), some mn, some mx, some (mx - mn)⟩

end

end Movenet


namespace FusionProcessor

/-- The three axis columns of one sensor (`{x, y, z}` arrays). -/
structure AxisData where
  x : List ℝ
  y : List ℝ
  z : List ℝ

noncomputable section

/-- The tail loop of `highPassFilter`:
`filtered[i] = alpha * (filtered[i-1] + data[i] - data[i-1])`. -/
def hpGo (alpha : ℝ) : ℝ → ℝ → List ℝ → List ℝ
  | _, _, [] => []
  | yPrev, xPrev, xi :: rest =>
    alpha * (yPrev + xi - xPrev) :: hpGo alpha (alpha * (yPrev + xi - xPrev)) xi rest

/-- `highPassFilter(data, sampleRate, cutoffFreq)` of `fusion-processor.js`:
`RC = 1/(2π·cutoff)`, `dt = 1/sampleRate`, `alpha = RC/(RC+dt)`, first
output forced to `0` (the source initialises `filtered = [0]`, so an empty
input still yields `[0]`). -/
def highPassFilter (data : List ℝ) (sampleRate cutoffFreq : ℝ) : List ℝ :=
  let RC := 1 / (cutoffFreq * 2 * Real.pi)
  let dt := 1 / sampleRate
  let alpha := RC / (RC + dt)
  match data with
  | [] => [0]
  | x0 :: rest => 0 :: hpGo alpha 0 x0 rest

/-- `removeGravityBias(accData, sampleRate)`: the 0.5 Hz high-pass applied
per axis to the raw accelerometer before 1g-normalisation. -/
def removeGravityBias (accData : AxisData) (sampleRate : ℝ) : AxisData :=
  ⟨highPassFilter accData.x sampleRate (1 / 2),
    highPassFilter accData.y sampleRate (1 / 2),
    highPassFilter accData.z sampleRate (1 / 2)⟩

/-- `median(arr)` of `fusion-processor.js`: sort ascending, take the middle
element for odd length and the mean of the two middles for even length.
(On an empty array the source yields `NaN`; the `getD 0` defaults here are
never reached by the theorems, which assume non-empty input.) -/
def median (arr : List ℝ) : ℝ :=
  if arr.length % 2 = 1 then (List.insertionSort (· ≤ ·) arr).getD (arr.length / 2) 0
  else
    ((List.insertionSort (· ≤ ·) arr).getD (arr.length / 2 - 1) 0 +
      (List.insertionSort (· ≤ ·) arr).getD (arr.length / 2) 0) / 2

/-- `mean(arr) = arr.reduce((sum, v) => sum + v, 0) / arr.length`. -/
def mean (arr : List ℝ) : ℝ :=
  arr.foldl (· + ·) 0 / (arr.length : ℝ)

/-- `calibrateMagnetometer(magData)`: subtract the per-axis median
(hard-iron bias removal). -/
def calibrateMagnetometer (magData : AxisData) : AxisData :=
  ⟨magData.x.map (· - median magData.x),
    magData.y.map (· - median magData.y),
    magData.z.map (· - median magData.z)⟩

/-- The per-sample magnitude array of `calibrateAccelerometer`
(`accData.x.map((_, i) => …sqrt(ax²+ay²+az²))`; the `getD 0` default
matches the equal-length columns produced by `extractAxisData`). -/
def magnitudes (accData : AxisData) : List ℝ :=
  (List.range accData.x.length).map fun i =>
    Real.sqrt ((accData.x.getD i 0) ^ 2 + (accData.y.getD i 0) ^ 2 +
      (accData.z.getD i 0) ^ 2)

/-- `calibrateAccelerometer(accData)`: scale every sample by
`1/meanMagnitude` when the mean magnitude is positive, else by `1`. -/
def calibrateAccelerometer (accData : AxisData) : AxisData :=
  let avgMagnitude := mean (magnitudes accData)
  let scale := if 0 < avgMagnitude then 1 / avgMagnitude else 1
  ⟨accData.x.map (· * scale), accData.y.map (· * scale),
    accData.z.map (· * scale)⟩

end

/-- Is `c` a lowercase-ASCII letter or digit (the characters kept by the
`[^a-z0-9]+` replacement of the header normaliser, which runs after
`toLowerCase`)? -/
def isLowerAlnum (c : Char) : Bool :=
  (decide ('a' ≤ c) && decide (c ≤ 'z')) || (decide ('0' ≤ c) && decide (c ≤ '9'))

/-- `replace(/[^a-z0-9]+/g, '_')`: each maximal run of non-alphanumeric
characters collapses to a single `'_'` (the flag records whether the
previous character already emitted one). -/
def collapseRuns : Bool → List Char → List Char
  | _, [] => []
  | prevSep, c :: rest =>
    if isLowerAlnum c then c :: collapseRuns false rest
    else if prevSep then collapseRuns true rest
    else '_' :: collapseRuns true rest

/-- `replace(/^_+|_+$/g, '')`: strip leading and trailing underscores. -/
def trimUnderscores (cs : List Char) : List Char :=
  ((cs.dropWhile (· = '_')).reverse.dropWhile (· = '_')).reverse

/-- `String(s || '').trim()` on the character list (whitespace at either
end removed). -/
def trimChars (cs : List Char) : List Char :=
  ((cs.dropWhile Char.isWhitespace).reverse.dropWhile Char.isWhitespace).reverse

/-- The `normalize` helper of `findAxisKeys`: trim, lowercase, collapse
non-alphanumeric runs to `'_'`, strip outer underscores. -/
def normalizeHeader (s : String) : String :=
  ⟨trimUnderscores (collapseRuns false ((trimChars s.data).map Char.toLower))⟩

/-- The three 9-DOF sensors. -/
inductive SensorKind
  | acc
  | gyro
  | mag
deriving DecidableEq

/-- One spatial axis. -/
inductive Axis
  | x
  | y
  | z
deriving DecidableEq

/-- The candidate header-name table of `findAxisKeys`. -/
def candidatesFor : SensorKind → Axis → List String
  | .acc, .x => ["acc_x", "accel_x", "ax", "accelerometer_x", "accx"]
  | .acc, .y => ["acc_y", "accel_y", "ay", "accelerometer_y", "accy"]
  | .acc, .z => ["acc_z", "accel_z", "az", "accelerometer_z", "accz"]
  | .gyro, .x => ["gyro_x", "gx", "gyroscope_x", "gyrox"]
  | .gyro, .y => ["gyro_y", "gy", "gyroscope_y", "gyroy"]
  | .gyro, .z => ["gyro_z", "gz", "gyroscope_z", "gyroz"]
  | .mag, .x => ["mag_x", "mx", "magnetometer_x", "magx"]
  | .mag, .y => ["mag_y", "my", "magnetometer_y", "magy"]
  | .mag, .z => ["mag_z", "mz", "magnetometer_z", "magz"]

/-- `findIndex`: return the position of the first candidate present in the
normalised headers (`normHeaders.indexOf(normalize(c))`, first hit wins). -/
def findCandIdx (normHeaders : List String) : List String → Option ℕ
  | [] => none
  | c :: rest =>
    match normHeaders.findIdx? (· = normalizeHeader c) with
    | some i => some i
    | none => findCandIdx normHeaders rest

/-- The `{x, y, z}` column indices found by `findAxisKeys(headers, sensor)`
(`null` = `none`). -/
structure AxisKeys where
  x : Option ℕ
  y : Option ℕ
  z : Option ℕ

/-- `findAxisKeys(headers, sensor)`. -/
def findAxisKeys (headers : List String) (sensor : SensorKind) : AxisKeys :=
  let normHeaders := headers.map normalizeHeader
  ⟨findCandIdx normHeaders (candidatesFor sensor .x),
    findCandIdx normHeaders (candidatesFor sensor .y),
    findCandIdx normHeaders (candidatesFor sensor .z)⟩

/-- `hasAxisData(headers, sensor)`: all three axis columns located. -/
def hasAxisData (headers : List String) (sensor : SensorKind) : Bool :=
  (findAxisKeys headers sensor).x.isSome &&
    (findAxisKeys headers sensor).y.isSome &&
    (findAxisKeys headers sensor).z.isSome

/-- One column of `extractAxisData`: `rows.map(r => Number(r[key] || 0))`
(a `null` key or a missing cell reads as `0`; rows are numeric CSV data
here). -/
def extractCol (rows : List (List ℝ)) (key : Option ℕ) : List ℝ :=
  rows.map fun r =>
    match key with
    | some k => r.getD k 0
    | none => 0

/-- `extractAxisData(rows, headers, sensor)`. -/
def extractAxisData (rows : List (List ℝ)) (headers : List String)
    (sensor : SensorKind) : AxisData :=
  ⟨extractCol rows (findAxisKeys headers sensor).x,
    extractCol rows (findAxisKeys headers sensor).y,
    extractCol rows (findAxisKeys headers sensor).z⟩

/-- The argument record of one `filter.update(gx, …, mz, dt)` call. -/
structure UpdateIn where
  gx : ℝ
  gy : ℝ
  gz : ℝ
  ax : ℝ
  ay : ℝ
  az : ℝ
  mx : ℝ
  my : ℝ
  mz : ℝ
  dt : ℝ

/-- An AHRS filter instance (the external `ahrs_min.js` library, outside
this repository): internal state, the `update` step and the quaternion
getter. -/
structure FilterKit (S : Type) where
  init : S
  update : S → UpdateIn → S
  getQuaternion : S → Movenet.Quat

/-- The external AHRS environment: whether `Madgwick` is defined, and the
`new Madgwick({sampleInterval, beta})` / `new Mahony({sampleInterval})`
constructors. -/
structure FusionEnv (S : Type) where
  madgwickDefined : Bool
  mkMadgwick : ℝ → ℝ → FilterKit S
  mkMahony : ℝ → FilterKit S

noncomputable section

/-- `createFilter(algorithm, sampleRate, beta)`: explicit error when the
AHRS library is missing or the algorithm name is unknown
(`complementary` falls back to Madgwick). -/
def createFilter (env : FusionEnv S) (algorithm : String) (sampleRate beta : ℝ) :
    Except String (FilterKit S) :=
  if env.madgwickDefined then
    if algorithm = "madgwick" then Except.ok (env.mkMadgwick (1000 / sampleRate) beta)
    else if algorithm = "mahony" then Except.ok (env.mkMahony (1000 / sampleRate))
    else if algorithm = "complementary" then Except.ok (env.mkMadgwick (1000 / sampleRate) beta)
    else Except.error ("Unknown algorithm: " ++ algorithm)
  else Except.error "AHRS library not loaded. Add ahrs_min.js to your project"

/-- `Math.atan2(y, x)` with the standard quadrant conventions. -/
def atan2 (y x : ℝ) : ℝ :=
  if 0 < x then Real.arctan (y / x)
  else if x < 0 then
    (if 0 ≤ y then Real.arctan (y / x) + Real.pi else Real.arctan (y / x) - Real.pi)
  else
    (if 0 < y then Real.pi / 2 else if y < 0 then -(Real.pi / 2) else 0)

/-- `Math.sign` on a real number. -/
def jsSign (v : ℝ) : ℝ :=
  if 0 < v then 1 else if v < 0 then -1 else 0

/-- `quaternionToEuler(q)`: roll/pitch/yaw with the gimbal-safe clamped
`asin` branch. -/
def quaternionToEuler (q : Movenet.Quat) : Movenet.EulerAngles :=
  let sinp := 2 * (q.w * q.y - q.z * q.x)
  ⟨atan2 (2 * (q.w * q.x + q.y * q.z)) (1 - 2 * (q.x ^ 2 + q.y ^ 2)),
    if 1 ≤ |sinp| then jsSign sinp * (Real.pi / 2) else Real.arcsin sinp,
    atan2 (2 * (q.w * q.z + q.x * q.y)) (1 - 2 * (q.y ^ 2 + q.z ^ 2))⟩

/-- `quaternionToRotationMatrix(q)`. -/
def quaternionToRotationMatrix (q : Movenet.Quat) : List (List ℝ) :=
  [[1 - 2 * (q.y ^ 2 + q.z ^ 2), 2 * (q.x * q.y - q.w * q.z), 2 * (q.x * q.z + q.w * q.y)],
    [2 * (q.x * q.y + q.w * q.z), 1 - 2 * (q.x ^ 2 + q.z ^ 2), 2 * (q.y * q.z - q.w * q.x)],
    [2 * (q.x * q.z - q.w * q.y), 2 * (q.y * q.z + q.w * q.x), 1 - 2 * (q.x ^ 2 + q.y ^ 2)]]

/-- One orientation sample `{quat, euler, rotMatrix}` of a fusion result. -/
structure OrientationSample where
  quat : Movenet.Quat
  euler : Movenet.EulerAngles
  rotMatrix : List (List ℝ)

/-- The `FusionResult` returned by `FusionProcessor.process`. -/
structure FusionResult where
  times : List ℝ
  orientations : List OrientationSample
  algorithm : String
  sampleRate : ℝ

/-- The options object of `process` (destructuring defaults:
`sampleRate = 100`, `algorithm = 'madgwick'`, `beta = 0.1`; an omitted
property is `none`). -/
structure ProcessOptions where
  rows : List (List ℝ)
  headers : List String
  timeSeconds : List ℝ
  sampleRate : Option ℝ
  algorithm : Option String
  beta : Option ℝ

/-- `gyroSample > 10` unit sniffing: sum of the absolute first samples of
the three gyro axes. -/
def gyroIsDegrees (gyroData : AxisData) : Bool :=
  decide (10 < |gyroData.x.getD 0 0| + |gyroData.y.getD 0 0| + |gyroData.z.getD 0 0|)

/-- The per-sample argument records fed to `filter.update` by the `process`
loop: calibrated accelerometer (high-passed then 1g-normalised), raw gyro
(converted to rad/s when sniffed as deg/s), median-debiased magnetometer,
and the constant `dt = 1/sampleRate`. -/
def processInputs (rows : List (List ℝ)) (headers : List String)
    (sampleRate : ℝ) : List UpdateIn :=
  let accData := extractAxisData rows headers .acc
  let gyroData := extractAxisData rows headers .gyro
  let magData := extractAxisData rows headers .mag
  let filteredAccData := removeGravityBias accData sampleRate
  let magCal := calibrateMagnetometer magData
  let accCal := calibrateAccelerometer filteredAccData
  let degFlag := gyroIsDegrees gyroData
  let conv : ℝ → ℝ := fun g => if degFlag then g * Real.pi / 180 else g
  (List.range rows.length).map fun i =>
    { gx := conv (gyroData.x.getD i 0)
      gy := conv (gyroData.y.getD i 0)
      gz := conv (gyroData.z.getD i 0)
      ax := accCal.x.getD i 0
      ay := accCal.y.getD i 0
      az := accCal.z.getD i 0
      mx := magCal.x.getD i 0
      my := magCal.y.getD i 0
      mz := magCal.z.getD i 0
      dt := 1 / sampleRate }

/-- The filter loop: update the running state with each sample and read the
quaternion after each update. -/
def runFilter (kit : FilterKit S) : S → List UpdateIn → List Movenet.Quat
  | _, [] => []
  | st, u :: rest =>
    kit.getQuaternion (kit.update st u) :: runFilter kit (kit.update st u) rest

/-- `FusionProcessor.process(options)`: empty-rows error, the 9-DOF header
check, filter creation (library/algorithm errors), then the per-sample
update loop at constant `dt`. -/
def process (env : FusionEnv S) (opts : ProcessOptions) : Except String FusionResult :=
  if opts.rows = [] then Except.error "No IMU data to process"
  else if !(hasAxisData opts.headers .acc && hasAxisData opts.headers .gyro &&
      hasAxisData opts.headers .mag) then
    Except.error "9-DOF data required (acc + gyro + mag)"
  else
    match createFilter env (opts.algorithm.getD "madgwick") (opts.sampleRate.getD 100)
        (opts.beta.getD (1 / 10)) with
    | Except.error msg => Except.error msg
    | Except.ok kit =>
      Except.ok
        { times := opts.timeSeconds
          orientations :=
            (runFilter kit kit.init
                (processInputs opts.rows opts.headers (opts.sampleRate.getD 100))).map
              fun q => ⟨q, quaternionToEuler q, quaternionToRotationMatrix q⟩
          algorithm := opts.algorithm.getD "madgwick"
          sampleRate := opts.sampleRate.getD 100 }

/-- The positive inter-sample deltas over the first `min(len−1, 200)`
entries of `timeSeconds`, collected by `FusionManager.processFusion` for
its sample-rate estimate. -/
def fusionDts (ts : List ℝ) : List ℝ :=
  (List.range' 1 (min (ts.length - 1) 200)).filterMap fun i =>
    if 0 < ts.getD i 0 - ts.getD (i - 1) 0 then some (ts.getD i 0 - ts.getD (i - 1) 0)
    else none

/-- The sample-rate normalisation step of `FusionManager.processFusion`:
when the caller supplies no finite `sampleRate` and `timeSeconds` has more
than two entries, estimate `1 / medianDt` from the positive deltas
(`medianDt && medianDt > 0` — the median of the collected deltas must be a
positive number, and the same sort/average-the-middles median as
`FusionProcessor.median` is used); otherwise leave the option unset. -/
def processFusionSampleRate (sampleRate : Option ℝ) (ts : List ℝ) : Option ℝ :=
  match sampleRate with
  | some r => some r
  | none =>
    if 2 < ts.length then
      match fusionDts ts with
      | [] => none
      | d :: rest =>
        if 0 < median (d :: rest) then some (1 / median (d :: rest)) else none
    else none

/-- `FusionManager.processFusion(options)` (with the default
`currentSettings` `{algorithm: 'madgwick', beta: 0.1}` override): normalise
the sample rate, then run `FusionProcessor.process`.  (The
`timeSecondsIndex` compatibility branch is not modelled — every caller of
interest passes `timeSeconds` directly.) -/
def processFusion (env : FusionEnv S) (opts : ProcessOptions) :
    Except String FusionResult :=
  process env
    { opts with
        sampleRate := processFusionSampleRate opts.sampleRate opts.timeSeconds
        algorithm := some "madgwick"
        beta := some (1 / 10) }

/-- A trivial filter environment over a unit state, used for concrete
instantiations (the library internals are external to this repository). -/
def trivialEnv : FusionEnv Unit :=
  ⟨true, fun _ _ => ⟨(), fun s _ => s, fun _ => ⟨1, 0, 0, 0⟩⟩,
    fun _ => ⟨(), fun s _ => s, fun _ => ⟨1, 0, 0, 0⟩⟩⟩

end

end FusionProcessor

/-! ### Theorems -/

namespace SessionViewerController

theorem acceptScale_iff (medianDt rawSpan : ℚ) (validCount : ℕ) (scale : ℚ) :
    acceptScale medianDt rawSpan validCount scale = true ↔
      (1 / 2000 ≤ medianDt * scale ∧ medianDt * scale ≤ 2) ∧
        (1 ≤ (validCount : ℚ) / (rawSpan * scale) ∧
          (validCount : ℚ) / (rawSpan * scale) ≤ 500) := by
  simp only [acceptScale, Bool.and_eq_true, decide_eq_true_eq]
  tauto

theorem scanScales_eq_find (medianDt rawSpan : ℚ) (validCount : ℕ) (h : 0 < rawSpan)
    (es : List ℤ) :
    scanScales medianDt rawSpan validCount es =
      (es.map fun e => (10 : ℚ) ^ (-e)).find? (acceptScale medianDt rawSpan validCount) := by
  induction es with
  | nil => rfl
  | cons e rest ih =>
    have spos : (0 : ℚ) < (10 : ℚ) ^ (-e) := zpow_pos (by norm_num) _
    have hdur : ¬ (rawSpan * (10 : ℚ) ^ (-e) ≤ 0) := not_le.mpr (mul_pos h spos)
    simp only [scanScales, List.map_cons, List.find?_cons]
    by_cases hA : medianDt * (10 : ℚ) ^ (-e) < 1 / 2000 ∨ 2 < medianDt * (10 : ℚ) ^ (-e)
    · rw [if_pos hA]
      have hacc : acceptScale medianDt rawSpan validCount ((10 : ℚ) ^ (-e)) = false := by
        rw [Bool.eq_false_iff]
        intro ht
        rw [acceptScale_iff] at ht
        rcases hA with h1 | h2
        · exact absurd ht.1.1 (not_le.mpr h1)
        · exact absurd ht.1.2 (not_le.mpr h2)
      rw [hacc]
      exact ih
    · push_neg at hA
      rw [if_neg (by push_neg; exact hA), if_neg hdur]
      by_cases hR : 1 ≤ (validCount : ℚ) / (rawSpan * (10 : ℚ) ^ (-e)) ∧
          (validCount : ℚ) / (rawSpan * (10 : ℚ) ^ (-e)) ≤ 500
      · rw [if_pos hR]
        have hacc : acceptScale medianDt rawSpan validCount ((10 : ℚ) ^ (-e)) = true :=
          (acceptScale_iff _ _ _ _).mpr ⟨⟨hA.1, hA.2⟩, hR⟩
        rw [hacc]
      · rw [if_neg hR]
        have hacc : acceptScale medianDt rawSpan validCount ((10 : ℚ) ^ (-e)) = false := by
          rw [Bool.eq_false_iff]
          intro ht
          rw [acceptScale_iff] at ht
          exact hR ht.2
        rw [hacc]
        exact ih

/-- C1: time-scale auto-detection computes the median inter-sample delta
over the first ~200 valid (finite) rows and then, over the ordered
power-of-ten candidates (divisors `10^9` down to `10^-3`, i.e. multiplier
scales `10^-9` up to `10^3`), returns the first scale whose scaled median
delta lies in `[0.5 ms, 2 s]` and whose implied rate
`validCount / (scale · rawSpan)` lies in `[1 Hz, 500 Hz]`; if no candidate
satisfies both, it returns `0.01 / medianDelta` (the 100 Hz fallback). -/
theorem detectTimeScaleFactor_first_accepted_candidate (rows : List Row) (timeIdx : ℕ)
    (h1 : (collectTimeStats rows timeIdx).dts ≠ [])
    (h2 : (collectTimeStats rows timeIdx).firstVal ≠ none)
    (h3 : (collectTimeStats rows timeIdx).lastVal ≠ none)
    (h4 : 0 < rawSpanOf rows timeIdx) :
    candidateScales =
      [1 / 1000000000, 1 / 100000000, 1 / 10000000, 1 / 1000000, 1 / 100000,
        1 / 10000, 1 / 1000, 1 / 100, 1 / 10, 1, 10, 100, 1000] ∧
    detectTimeScaleFactor rows timeIdx =
      (candidateScales.find?
          (acceptScale (medianDelta rows timeIdx) (rawSpanOf rows timeIdx)
            (collectTimeStats rows timeIdx).validCount)).getD
        ((1 / 100) / medianDelta rows timeIdx) := by
  constructor
  · norm_num [candidateScales, expRange]
  · unfold detectTimeScaleFactor
    rw [if_neg (by simp [h1, h2, h3]), if_neg (not_le.mpr h4)]
    rw [scanScales_eq_find _ _ _ h4]
    have hcand : (expRange.map fun e => (10 : ℚ) ^ (-e)) = candidateScales := rfl
    rw [hcand]
    cases hf : candidateScales.find?
        (acceptScale (medianDelta rows timeIdx) (rawSpanOf rows timeIdx)
          (collectTimeStats rows timeIdx).validCount) with
    | none => simp
    | some s => simp

/-- Witness for C1 at a concrete input: four rows with raw timestamps
`0, 10, 20, 30` (raw unit `10 ms`); the accepted scale is `1/1000`. -/
theorem detectTimeScaleFactor_first_accepted_candidate_witness :
    ((collectTimeStats [[some 0], [some 10], [some 20], [some 30]] 0).dts ≠ [] ∧
      0 < rawSpanOf [[some 0], [some 10], [some 20], [some 30]] 0) ∧
    detectTimeScaleFactor [[some 0], [some 10], [some 20], [some 30]] 0 =
      (candidateScales.find?
          (acceptScale (medianDelta [[some 0], [some 10], [some 20], [some 30]] 0)
            (rawSpanOf [[some 0], [some 10], [some 20], [some 30]] 0)
            (collectTimeStats [[some 0], [some 10], [some 20], [some 30]] 0).validCount)).getD
        ((1 / 100) / medianDelta [[some 0], [some 10], [some 20], [some 30]] 0) := by
  have h1 : (collectTimeStats [[some 0], [some 10], [some 20], [some 30]] 0).dts ≠ [] := by
    norm_num [collectTimeStats, enumFromIdx, scanRow, getCell]
    simp
  have h2 : (collectTimeStats [[some 0], [some 10], [some 20], [some 30]] 0).firstVal ≠ none := by
    norm_num [collectTimeStats, enumFromIdx, scanRow, getCell]
    simp
  have h3 : (collectTimeStats [[some 0], [some 10], [some 20], [some 30]] 0).lastVal ≠ none := by
    norm_num [collectTimeStats, enumFromIdx, scanRow, getCell]
    simp
  have h4 : 0 < rawSpanOf [[some 0], [some 10], [some 20], [some 30]] 0 := by
    norm_num [rawSpanOf, collectTimeStats, enumFromIdx, scanRow, getCell]
  exact ⟨⟨h1, h4⟩,
    (detectTimeScaleFactor_first_accepted_candidate _ 0 h1 h2 h3 h4).2⟩

end SessionViewerController

namespace SessionViewerController

/-- C2 counterexample: the claim says every row's time cell — including
non-finite ones — is replaced, and that too-short input is not rewritten.
In the code a non-finite time cell is `continue`d over and stays untouched
(middle row below), while a single-row input IS rewritten (its cell becomes
`0`) with scale `1.0`. -/
theorem normalizeTimeColumnInPlace_counterexample :
    (normalizeTimeColumnInPlace [[some 0], [none], [some 1]] 0).1 =
      [[some 0], [none], [some (1 / 100)]] ∧
    (normalizeTimeColumnInPlace [[some (5 : ℚ)]] 0).1 = [[some 0]] ∧
    (normalizeTimeColumnInPlace [[some (5 : ℚ)]] 0).2.scale = some 1 := by
  refine ⟨?_, ?_, ?_⟩ <;>
    norm_num [normalizeTimeColumnInPlace, rewriteRow, getCell, detectTimeScaleFactor,
      collectTimeStats, enumFromIdx, scanRow, medianDelta, rawSpanOf, scanScales, expRange] <;>
    simp

/-- C2 (amended): when the input is non-empty and its first time cell is
finite, `normalizeTimeColumnInPlace` reports `t0 = 0`, the detected scale,
`t0Raw` and the running maxima, and rewrites exactly the rows whose time
cell is finite — cell `v` becomes `(v − t0Raw) · scale` — while rows with a
non-finite time cell are left unchanged; an empty input is returned
untouched with no scale. -/
theorem normalizeTimeColumnInPlace_spec (r0 : Row) (rest : List Row) (timeIdx : ℕ)
    (t0Raw : ℚ) (h0 : getCell r0 timeIdx = some t0Raw) :
    (normalizeTimeColumnInPlace (r0 :: rest) timeIdx).2 =
      ⟨some 0, maxTOf (r0 :: rest) timeIdx t0Raw (detectTimeScaleFactor (r0 :: rest) timeIdx),
        some t0Raw, maxTRawOf (r0 :: rest) timeIdx t0Raw,
        some (detectTimeScaleFactor (r0 :: rest) timeIdx)⟩ ∧
    (∀ i : ℕ, (normalizeTimeColumnInPlace (r0 :: rest) timeIdx).1[i]? =
      ((r0 :: rest)[i]?).map
        (rewriteRow timeIdx t0Raw (detectTimeScaleFactor (r0 :: rest) timeIdx))) ∧
    (∀ r : Row, getCell r timeIdx = none →
      rewriteRow timeIdx t0Raw (detectTimeScaleFactor (r0 :: rest) timeIdx) r = r) ∧
    (∀ r : Row, ∀ v : ℚ, getCell r timeIdx = some v →
      rewriteRow timeIdx t0Raw (detectTimeScaleFactor (r0 :: rest) timeIdx) r =
        r.set timeIdx (some ((v - t0Raw) * detectTimeScaleFactor (r0 :: rest) timeIdx))) ∧
    normalizeTimeColumnInPlace [] timeIdx = ([], ⟨none, 0, none, 0, none⟩) := by
  refine ⟨?_, ?_, ?_, ?_, ?_⟩
  · simp [normalizeTimeColumnInPlace, h0]
  · intro i
    cases i with
    | zero => simp [normalizeTimeColumnInPlace, h0]
    | succ n => simp [normalizeTimeColumnInPlace, h0, List.getElem?_map]
  · intro r hr
    simp [rewriteRow, hr]
  · intro r v hv
    simp [rewriteRow, hv]
  · simp [normalizeTimeColumnInPlace]

/-- Witness for C2 (amended) at the concrete input `[[2], [3]]`. -/
theorem normalizeTimeColumnInPlace_spec_witness :
    getCell [some 2] 0 = some 2 ∧
    ((normalizeTimeColumnInPlace [[some 2], [some 3]] 0).2 =
      ⟨some 0, maxTOf [[some 2], [some 3]] 0 2 (detectTimeScaleFactor [[some 2], [some 3]] 0),
        some 2, maxTRawOf [[some 2], [some 3]] 0 2,
        some (detectTimeScaleFactor [[some 2], [some 3]] 0)⟩ ∧
    (∀ i : ℕ, (normalizeTimeColumnInPlace [[some 2], [some 3]] 0).1[i]? =
      (([[some 2], [some 3]] : List Row)[i]?).map
        (rewriteRow 0 2 (detectTimeScaleFactor [[some 2], [some 3]] 0))) ∧
    (∀ r : Row, getCell r 0 = none →
      rewriteRow 0 2 (detectTimeScaleFactor [[some 2], [some 3]] 0) r = r) ∧
    (∀ r : Row, ∀ v : ℚ, getCell r 0 = some v →
      rewriteRow 0 2 (detectTimeScaleFactor [[some 2], [some 3]] 0) r =
        r.set 0 (some ((v - 2) * detectTimeScaleFactor [[some 2], [some 3]] 0))) ∧
    normalizeTimeColumnInPlace [] 0 = ([], ⟨none, 0, none, 0, none⟩)) :=
  ⟨by simp [getCell],
    normalizeTimeColumnInPlace_spec [some 2] [[some 3]] 0 2 (by simp [getCell])⟩

/-- C9: the IMU cursor is always clamped into `[minX, maxX]`:
`setImuCursorX` clamps its input into the current bounds; `applyTimeframe`
fires only when `t1`/`t2` are both finite and distinct, publishes the
order-normalized pair, and the controller handler installs it as the new
cursor range and re-clamps the cursor into it. -/
theorem imuCursor_stays_in_bounds (st : ImuCursor) (v : Option ℚ)
    (hb : st.minX ≤ st.maxX) :
    (st.minX ≤ (setImuCursorX st v).x ∧ (setImuCursorX st v).x ≤ st.maxX) ∧
    (∀ sync : TimeSync.SyncState,
      (TimeSync.canApplyTimeframe sync = true ↔
        (sync.t1.isSome = true ∧ sync.t2.isSome = true ∧ sync.t1 ≠ sync.t2)) ∧
      (TimeSync.canApplyTimeframe sync = false → TimeSync.applyTimeframe sync = none) ∧
      (∀ a b : ℚ, TimeSync.applyTimeframe sync = some (a, b) →
        a = min (sync.t1.getD 0) (sync.t2.getD 0) ∧
        b = max (sync.t1.getD 0) (sync.t2.getD 0) ∧
        (∀ c : ImuCursor,
          (onImuTimeframeApplied c a b).minX = min a b ∧
          (onImuTimeframeApplied c a b).maxX = max a b ∧
          (onImuTimeframeApplied c a b).minX ≤ (onImuTimeframeApplied c a b).x ∧
          (onImuTimeframeApplied c a b).x ≤ (onImuTimeframeApplied c a b).maxX))) := by
  refine ⟨⟨?_, ?_⟩, ?_⟩
  · exact le_min hb (le_max_left _ _)
  · exact min_le_left _ _
  · intro sync
    refine ⟨?_, ?_, ?_⟩
    · simp [TimeSync.canApplyTimeframe, Bool.and_eq_true, decide_eq_true_eq]
      tauto
    · intro hfalse
      simp [TimeSync.applyTimeframe, hfalse]
    · intro a b happ
      rw [TimeSync.applyTimeframe] at happ
      by_cases hcan : TimeSync.canApplyTimeframe sync = true
      · rw [if_pos hcan] at happ
        have hpair := Option.some.inj happ
        refine ⟨(congrArg Prod.fst hpair).symm, (congrArg Prod.snd hpair).symm, ?_⟩
        intro c
        refine ⟨rfl, rfl, ?_, ?_⟩
        · exact le_min min_le_max (le_max_left _ _)
        · exact min_le_left _ _
      · rw [if_neg hcan] at happ
        exact absurd happ (by simp)

/-- Witness for C9 at a concrete state: bounds `[0, 10]`, cursor input `42`
clamps to `10`; timeframe `t1 = 3`, `t2 = 1` gives range `[1, 3]`. -/
theorem imuCursor_stays_in_bounds_witness :
    ((0 : ℚ) ≤ 10) ∧
    ((setImuCursorX ⟨5, 0, 10⟩ (some 42)).x = 10) ∧
    (TimeSync.applyTimeframe ⟨none, none, some 3, some 1⟩ = some (1, 3)) ∧
    ((0 : ℚ) ≤ (setImuCursorX ⟨5, 0, 10⟩ (some 42)).x ∧
      (setImuCursorX ⟨5, 0, 10⟩ (some 42)).x ≤ 10) := by
  have h := imuCursor_stays_in_bounds ⟨5, 0, 10⟩ (some 42) (by norm_num)
  refine ⟨by norm_num, ?_, ?_, h.1⟩
  · norm_num [setImuCursorX, clamp]
  · norm_num [TimeSync.applyTimeframe, TimeSync.canApplyTimeframe]

end SessionViewerController

namespace TimeSync

/-- C6: after `markVideo` and `markIMU` captured finite times,
`computeOffset` stores `offset = videoMarker − imuMarker`; the follow-video
mappings are `videoTime → videoTime − offset` and
`imuTime → imuTime + offset`; `computeOffset` leaves the state untouched
when either marker is unset. -/
theorem computeOffset_and_mappings (st : SyncState) (v m : ℚ) :
    ((computeOffset (markVideo st (some v)) (some m)).offset = some (v - m)) ∧
    (∀ vt : ℚ, videoToImu (some (v - m)) vt = vt - (v - m)) ∧
    (∀ it : ℚ, imuToVideo (v - m) it = it + (v - m)) ∧
    (∀ st' : SyncState, st'.videoMarkerT = none →
      ∀ im : Option ℚ, computeOffset st' im = st') ∧
    (∀ st' : SyncState, computeOffset st' none = st') := by
  refine ⟨?_, fun _ => rfl, fun _ => rfl, ?_, ?_⟩
  · simp [computeOffset, markVideo]
  · intro st' hnone im
    cases im <;> simp [computeOffset, hnone]
  · intro st'
    cases h : st'.videoMarkerT <;> simp [computeOffset, h]

/-- Witness for C6: `markVideo(10.0) + markIMU(7.5) + computeOffset` gives
`offset = 2.5`; `videoToImu 12.5 = 10`; `imuToVideo 10 = 12.5`. -/
theorem computeOffset_and_mappings_witness :
    ((computeOffset (markVideo ⟨none, none, none, none⟩ (some 10)) (some (15 / 2))).offset =
      some (5 / 2)) ∧
    videoToImu (some (5 / 2)) (25 / 2) = 10 ∧
    imuToVideo (5 / 2) 10 = 25 / 2 := by
  have h := computeOffset_and_mappings ⟨none, none, none, none⟩ 10 (15 / 2)
  refine ⟨?_, ?_, ?_⟩
  · have h1 := h.1
    norm_num at h1
    exact h1
  · have h2 := h.2.1 (25 / 2)
    norm_num at h2
    exact h2
  · have h3 := h.2.2.1 10
    norm_num at h3
    exact h3

end TimeSync

namespace Movenet

theorem multiply_conjugate_w (c : Quat) :
    (Quat.multiply c (Quat.conjugate c)).w = Quat.normSq c := by
  simp [Quat.multiply, Quat.conjugate, Quat.normSq]
  ring

theorem normSq_canonicalize (q : Quat) :
    Quat.normSq (Quat.canonicalize q) = Quat.normSq q := by
  unfold Quat.canonicalize
  split
  · simp [Quat.normSq]
  · rfl

theorem canonicalize_neg (q : Quat) (hw : q.w ≠ 0) :
    Quat.canonicalize (Quat.neg q) = Quat.canonicalize q := by
  unfold Quat.canonicalize Quat.neg
  rcases lt_or_gt_of_ne hw with hlt | hgt
  · rw [if_neg (by simp only [not_lt]; linarith), if_pos hlt]
  · rw [if_pos (by simp only []; linarith), if_neg (not_lt.mpr hgt.le)]
    simp

/-- C4 counterexample: for the unit quaternion `q = (0, 1, 0, 0)` (scalar
part zero) canonicalization leaves both `q` and `−q` unchanged, and
`relativeAngleDeg(q, −q)` evaluates to `360`, not `0`. -/
theorem relativeAngleDeg_neg_counterexample :
    Quat.normSq ⟨0, 1, 0, 0⟩ = 1 ∧
    relativeAngleDeg ⟨0, 1, 0, 0⟩ (Quat.neg ⟨0, 1, 0, 0⟩) = 360 ∧
    (360 : ℝ) ≠ 0 := by
  refine ⟨by norm_num [Quat.normSq], ?_, by norm_num⟩
  have hneg : Quat.neg ⟨0, 1, 0, 0⟩ = ⟨0, -1, 0, 0⟩ := by
    simp [Quat.neg]
  have hc1 : Quat.canonicalize ⟨0, 1, 0, 0⟩ = ⟨0, 1, 0, 0⟩ := by
    norm_num [Quat.canonicalize]
  have hc2 : Quat.canonicalize ⟨0, -1, 0, 0⟩ = ⟨0, -1, 0, 0⟩ := by
    norm_num [Quat.canonicalize]
  unfold relativeAngleDeg
  rw [hneg, hc1, hc2]
  have hmul : (Quat.multiply ⟨0, -1, 0, 0⟩ (Quat.conjugate ⟨0, 1, 0, 0⟩)).w = -1 := by
    norm_num [Quat.multiply, Quat.conjugate]
  rw [hmul]
  have hcl : clampR (-1) (-1) 1 = -1 := by norm_num [clampR]
  rw [hcl, Real.arccos_neg_one, rad2deg]
  field_simp
  ring

/-- C4 (amended): for every unit quaternion `q`,
`relativeAngleDeg(q, q) = 0`; and `relativeAngleDeg(q, −q) = 0` whenever
the scalar part of `q` is non-zero (when `q.w = 0` the `w < 0` sign flip
fires for neither argument and the result is `360°`, see the
counterexample). -/
theorem relativeAngleDeg_self_and_neg (q : Quat) (h : Quat.normSq q = 1) :
    relativeAngleDeg q q = 0 ∧
    (q.w ≠ 0 → relativeAngleDeg q (Quat.neg q) = 0) := by
  have key : ∀ b : Quat, Quat.canonicalize b = Quat.canonicalize q →
      relativeAngleDeg q b = 0 := by
    intro b hb
    unfold relativeAngleDeg
    rw [hb, multiply_conjugate_w, normSq_canonicalize, h]
    have hcl : clampR 1 (-1) 1 = 1 := by norm_num [clampR]
    rw [hcl, Real.arccos_one]
    simp [rad2deg]
  exact ⟨key q rfl, fun hw => key (Quat.neg q) (canonicalize_neg q hw)⟩

/-- Witness for C4 (amended) at the identity quaternion. -/
theorem relativeAngleDeg_self_and_neg_witness :
    Quat.normSq ⟨1, 0, 0, 0⟩ = 1 ∧
    relativeAngleDeg ⟨1, 0, 0, 0⟩ ⟨1, 0, 0, 0⟩ = 0 ∧
    relativeAngleDeg ⟨1, 0, 0, 0⟩ (Quat.neg ⟨1, 0, 0, 0⟩) = 0 := by
  have hn : Quat.normSq ⟨1, 0, 0, 0⟩ = 1 := by norm_num [Quat.normSq]
  have h := relativeAngleDeg_self_and_neg ⟨1, 0, 0, 0⟩ hn
  exact ⟨hn, h.1, h.2 (by norm_num)⟩

end Movenet

namespace Movenet

/-- C3: given three non-null fusion results, `ArmAngleAnalyser.#compute`
truncates to `n = min(|shoulder|, |elbow|, |wrist|, |times|)` and, for every
`i < n`, sets `elbow[i] = relativeAngleDeg(shoulderQuat[i], elbowQuat[i])`
and `wrist[i] = relativeAngleDeg(elbowQuat[i], wristQuat[i])`, with the
times series truncated to the same `n` — sample-by-sample pairing at equal
indices, no interpolation across mismatched stream lengths. -/
theorem armAngle_compute_truncation (s e w : FusionData) (h : 0 < armN s e w) :
    compute s e w = Except.ok (computeOk s e w) ∧
    (computeOk s e w).times = s.times.take (armN s e w) ∧
    (computeOk s e w).elbow.length = armN s e w ∧
    (computeOk s e w).wrist.length = armN s e w ∧
    (∀ i : ℕ, i < armN s e w →
      (computeOk s e w).elbow[i]? =
        some (relativeAngleDeg (s.orientations.getD i Orientation.dummy).quat
          (e.orientations.getD i Orientation.dummy).quat) ∧
      (computeOk s e w).wrist[i]? =
        some (relativeAngleDeg (e.orientations.getD i Orientation.dummy).quat
          (w.orientations.getD i Orientation.dummy).quat)) := by
  refine ⟨?_, rfl, ?_, ?_, ?_⟩
  · rw [compute, if_neg (Nat.pos_iff_ne_zero.mp h)]
  · simp [computeOk]
  · simp [computeOk]
  · intro i hi
    constructor <;> simp [computeOk, List.getElem?_map, List.getElem?_range, hi]

/-- Witness for C3: three one-sample streams. -/
theorem armAngle_compute_truncation_witness :
    0 < armN ⟨[0], [⟨⟨1, 0, 0, 0⟩, none⟩]⟩ ⟨[0], [⟨⟨1, 0, 0, 0⟩, none⟩]⟩
        ⟨[0], [⟨⟨1, 0, 0, 0⟩, none⟩]⟩ ∧
    compute ⟨[0], [⟨⟨1, 0, 0, 0⟩, none⟩]⟩ ⟨[0], [⟨⟨1, 0, 0, 0⟩, none⟩]⟩
        ⟨[0], [⟨⟨1, 0, 0, 0⟩, none⟩]⟩ =
      Except.ok (computeOk ⟨[0], [⟨⟨1, 0, 0, 0⟩, none⟩]⟩ ⟨[0], [⟨⟨1, 0, 0, 0⟩, none⟩]⟩
        ⟨[0], [⟨⟨1, 0, 0, 0⟩, none⟩]⟩) := by
  have h : 0 < armN ⟨[0], [⟨⟨1, 0, 0, 0⟩, none⟩]⟩ ⟨[0], [⟨⟨1, 0, 0, 0⟩, none⟩]⟩
      ⟨[0], [⟨⟨1, 0, 0, 0⟩, none⟩]⟩ := by
    norm_num [armN]
  exact ⟨h, (armAngle_compute_truncation _ _ _ h).1⟩

/-- C8 counterexample: on empty orientation streams the analyser does NOT
yield NaN statistics — `#compute` throws
`"No samples available to compute angles."` before `statsOf` is ever
reached. -/
theorem armAngle_empty_throws_counterexample :
    compute ⟨[], []⟩ ⟨[], []⟩ ⟨[], []⟩ =
      Except.error "No samples available to compute angles." := rfl

/-- C8 (amended): empty orientation streams make `ArmAngleAnalyser.#compute`
throw the assertion error `"No samples available to compute angles."`;
the `statsOf` helper itself does map an empty series to all-NaN statistics
(`none` fields in this model), but the analyser never reaches it on empty
input. -/
theorem armAngle_empty_behaviour (s e w : FusionData) (h : s.orientations = []) :
    compute s e w = Except.error "No samples available to compute angles." ∧
    statsOf [] = ⟨none, none, none, none⟩ := by
  constructor
  · have h0 : armN s e w = 0 := by simp [armN, h]
    rw [compute, if_pos h0]
  · rfl

/-- Witness for C8 (amended) at concrete empty streams. -/
theorem armAngle_empty_behaviour_witness :
    (⟨[], []⟩ : FusionData).orientations = ([] : List Orientation) ∧
    (compute ⟨[], []⟩ ⟨[], []⟩ ⟨[], []⟩ =
        Except.error "No samples available to compute angles." ∧
      statsOf [] = ⟨none, none, none, none⟩) :=
  ⟨rfl, armAngle_empty_behaviour ⟨[], []⟩ ⟨[], []⟩ ⟨[], []⟩ rfl⟩

end Movenet

namespace FusionProcessor

/-- C7: `process` throws an explicit error whenever any of the
accelerometer / gyroscope / magnetometer x/y/z triplets cannot be located
by the case/separator-insensitive header matching, an explicit error when
the AHRS library is unavailable, and an explicit error for an unknown
algorithm name; conversely a successful run certifies that all three 9-DOF
triplets were located — it never silently proceeds without them. -/
theorem process_explicit_errors {S : Type} (env : FusionEnv S) (opts : ProcessOptions)
    (hrows : opts.rows ≠ []) :
    ((hasAxisData opts.headers .acc = false ∨ hasAxisData opts.headers .gyro = false ∨
        hasAxisData opts.headers .mag = false) →
      process env opts = Except.error "9-DOF data required (acc + gyro + mag)") ∧
    (hasAxisData opts.headers .acc = true → hasAxisData opts.headers .gyro = true →
      hasAxisData opts.headers .mag = true →
      (env.madgwickDefined = false →
        process env opts =
          Except.error "AHRS library not loaded. Add ahrs_min.js to your project") ∧
      (env.madgwickDefined = true →
        opts.algorithm.getD "madgwick" ≠ "madgwick" →
        opts.algorithm.getD "madgwick" ≠ "mahony" →
        opts.algorithm.getD "madgwick" ≠ "complementary" →
        process env opts =
          Except.error ("Unknown algorithm: " ++ opts.algorithm.getD "madgwick"))) ∧
    (∀ res : FusionResult, process env opts = Except.ok res →
      hasAxisData opts.headers .acc = true ∧ hasAxisData opts.headers .gyro = true ∧
        hasAxisData opts.headers .mag = true) := by
  have part1 : (hasAxisData opts.headers .acc = false ∨
      hasAxisData opts.headers .gyro = false ∨ hasAxisData opts.headers .mag = false) →
      process env opts = Except.error "9-DOF data required (acc + gyro + mag)" := by
    intro h
    rcases h with h | h | h <;> simp [process, hrows, h]
  refine ⟨part1, ?_, ?_⟩
  · intro ha hg hm
    constructor
    · intro hmad
      simp [process, hrows, ha, hg, hm, createFilter, hmad]
    · intro hmad h1 h2 h3
      simp [process, hrows, ha, hg, hm, createFilter, hmad, h1, h2, h3]
  · intro res hok
    refine ⟨?_, ?_, ?_⟩ <;> by_contra hno
    · exact absurd (part1 (Or.inl (Bool.not_eq_true _ ▸ hno))) (by simp [hok])
    · exact absurd (part1 (Or.inr (Or.inl (Bool.not_eq_true _ ▸ hno)))) (by simp [hok])
    · exact absurd (part1 (Or.inr (Or.inr (Bool.not_eq_true _ ▸ hno)))) (by simp [hok])

/-- Witness for C7: headers missing the magnetometer columns produce the
9-DOF error (despite mixed case/separators in the present columns); a
missing AHRS library and an unknown algorithm name produce their errors. -/
theorem process_explicit_errors_witness :
    process trivialEnv
        ⟨[[0]], ["time", "Acc X", "ACC-Y", "acc.z", "gx", "gy", "gz"], [0], none, none, none⟩ =
      Except.error "9-DOF data required (acc + gyro + mag)" ∧
    process { trivialEnv with madgwickDefined := false }
        ⟨[[0]], ["ax", "ay", "az", "gx", "gy", "gz", "mx", "my", "mz"], [0], none, none, none⟩ =
      Except.error "AHRS library not loaded. Add ahrs_min.js to your project" ∧
    process trivialEnv
        ⟨[[0]], ["ax", "ay", "az", "gx", "gy", "gz", "mx", "my", "mz"], [0], none,
          some "kalman", none⟩ =
      Except.error ("Unknown algorithm: " ++ "kalman") := by
  refine ⟨?_, ?_, ?_⟩
  · exact (process_explicit_errors trivialEnv _ (by simp)).1
      (Or.inr (Or.inr (by decide)))
  · exact ((process_explicit_errors _ _ (by simp)).2.1 (by decide) (by decide) (by decide)).1
      rfl
  · exact ((process_explicit_errors trivialEnv _ (by simp)).2.1 (by decide) (by decide)
      (by decide)).2 rfl (by decide) (by decide) (by decide)

end FusionProcessor

namespace FusionProcessor

theorem fusionDts_pos (ts : List ℝ) : ∀ x ∈ fusionDts ts, 0 < x := by
  intro x hx
  simp only [fusionDts, List.mem_filterMap] at hx
  obtain ⟨i, _, hi⟩ := hx
  by_cases h : 0 < ts.getD i 0 - ts.getD (i - 1) 0
  · rw [if_pos h] at hi
    cases hi
    exact h
  · rw [if_neg h] at hi
    cases hi

theorem median_pos (l : List ℝ) (hne : l ≠ []) (hpos : ∀ x ∈ l, 0 < x) :
    0 < median l := by
  have hlen : 0 < l.length := List.length_pos.mpr hne
  have hsortlen : (List.insertionSort (· ≤ ·) l).length = l.length :=
    List.length_insertionSort (· ≤ ·) l
  have hmem : ∀ i, i < l.length → 0 < (List.insertionSort (· ≤ ·) l).getD i 0 := by
    intro i h
    have hi : i < (List.insertionSort (· ≤ ·) l).length := by rw [hsortlen]; exact h
    rw [List.getD_eq_getElem _ _ hi]
    exact hpos _ ((List.perm_insertionSort (· ≤ ·) l).mem_iff.mp (List.getElem_mem hi))
  have hmid : l.length / 2 < l.length := Nat.div_lt_self hlen one_lt_two
  have hmid1 : l.length / 2 - 1 < l.length := lt_of_le_of_lt (Nat.sub_le _ _) hmid
  unfold median
  split
  · exact hmem _ hmid
  · have h1 := hmem _ hmid1
    have h2 := hmem _ hmid
    linarith

/-- C10: when the caller omits `sampleRate`, `FusionManager.processFusion`
estimates it as the reciprocal of the (sort-and-average-the-middles) median
of the positive inter-sample deltas over the first `min(len−1, 200)`
entries of `timeSeconds`; `process` falls back to `100 Hz` for an absent
rate; and the per-sample filter update receives the constant
`dt = 1/sampleRate` for every sample, never per-sample measured deltas. -/
theorem processFusion_sample_rate (ts : List ℝ)
    (hlen : 2 < ts.length) (hne : fusionDts ts ≠ []) :
    processFusionSampleRate none ts = some (1 / median (fusionDts ts)) ∧
    (∀ (rows : List (List ℝ)) (headers : List String) (r : ℝ),
      (processInputs rows headers r).map (fun u => u.dt) =
        List.replicate rows.length (1 / r)) ∧
    (∀ {S : Type} (env : FusionEnv S) (opts : ProcessOptions) (res : FusionResult),
      opts.sampleRate = none → process env opts = Except.ok res →
        res.sampleRate = 100) := by
  refine ⟨?_, ?_, ?_⟩
  · simp only [processFusionSampleRate]
    rw [if_pos hlen]
    cases hd : fusionDts ts with
    | nil => exact absurd hd hne
    | cons d rest =>
      have hp : 0 < median (d :: rest) := by
        rw [← hd]
        exact median_pos _ hne (fusionDts_pos ts)
      show (if 0 < median (d :: rest) then some (1 / median (d :: rest)) else none) =
        some (1 / median (d :: rest))
      rw [if_pos hp]
  · intro rows headers r
    simp only [processInputs, List.map_map]
    refine List.eq_replicate_iff.mpr ⟨by simp, ?_⟩
    intro b hb
    simp only [List.mem_map] at hb
    obtain ⟨i, _, rfl⟩ := hb
    rfl
  · intro S env opts res hnone hok
    rw [process] at hok
    split at hok
    · exact absurd hok (by simp)
    · split at hok
      · exact absurd hok (by simp)
      · split at hok
        · exact absurd hok (by simp)
        · have hres := Except.ok.inj hok
          rw [← hres, hnone]
          rfl

/-- Witness for C10 at `timeSeconds = [0, 1, 2, 3]`: the positive deltas
are `[1, 1, 1]`, the median is `1`, and the estimated rate is `1`. -/
theorem processFusion_sample_rate_witness :
    2 < ([0, 1, 2, 3] : List ℝ).length ∧
    fusionDts [0, 1, 2, 3] ≠ [] ∧
    processFusionSampleRate none [0, 1, 2, 3] =
      some (1 / median (fusionDts [0, 1, 2, 3])) := by
  have hlen : 2 < ([0, 1, 2, 3] : List ℝ).length := by simp
  have hne : fusionDts [(0 : ℝ), 1, 2, 3] ≠ [] := by
    norm_num [fusionDts, List.range', List.filterMap, List.getD]
    simp
  exact ⟨hlen, hne, (processFusion_sample_rate [0, 1, 2, 3] hlen hne).1⟩

end FusionProcessor

namespace FusionProcessor

theorem getD_map_mul (l : List ℝ) (s : ℝ) (i : ℕ) :
    (l.map (· * s)).getD i 0 = l.getD i 0 * s := by
  rcases lt_or_ge i l.length with h | h
  · rw [List.getD_eq_getElem _ _ (by simpa using h), List.getD_eq_getElem _ _ h,
      List.getElem_map]
  · rw [List.getD_eq_default _ _ (by simpa using h), List.getD_eq_default _ _ h, zero_mul]

theorem magnitudes_scale (d : AxisData) (s : ℝ) (hs : 0 ≤ s) :
    magnitudes ⟨d.x.map (· * s), d.y.map (· * s), d.z.map (· * s)⟩ =
      (magnitudes d).map (· * s) := by
  unfold magnitudes
  rw [List.map_map, List.length_map]
  apply List.map_congr_left
  intro i _
  simp only [Function.comp_apply, getD_map_mul]
  rw [show (d.x.getD i 0 * s) ^ 2 + (d.y.getD i 0 * s) ^ 2 + (d.z.getD i 0 * s) ^ 2 =
      (d.x.getD i 0 ^ 2 + d.y.getD i 0 ^ 2 + d.z.getD i 0 ^ 2) * s ^ 2 by ring,
    Real.sqrt_mul (by positivity) _, Real.sqrt_sq hs]

theorem foldl_add_map_mul (l : List ℝ) (s : ℝ) :
    ∀ a : ℝ, (l.map (· * s)).foldl (· + ·) (a * s) = l.foldl (· + ·) a * s := by
  induction l with
  | nil => intro a; rfl
  | cons x t ih =>
    intro a
    simp only [List.map_cons, List.foldl_cons]
    rw [show a * s + x * s = (a + x) * s by ring, ih]

theorem mean_map_mul (l : List ℝ) (s : ℝ) : mean (l.map (· * s)) = mean l * s := by
  unfold mean
  rw [List.length_map]
  have h := foldl_add_map_mul l s 0
  rw [zero_mul] at h
  rw [h]
  ring

theorem calibrateAccelerometer_mean_one (d : AxisData)
    (h : 0 < mean (magnitudes d)) :
    mean (magnitudes (calibrateAccelerometer d)) = 1 := by
  simp only [calibrateAccelerometer]
  rw [if_pos h]
  rw [magnitudes_scale d (1 / mean (magnitudes d)) (by positivity), mean_map_mul]
  field_simp

theorem orderedInsert_map_add (B a : ℝ) (l : List ℝ) :
    List.orderedInsert (· ≤ ·) (a + B) (l.map (· + B)) =
      (List.orderedInsert (· ≤ ·) a l).map (· + B) := by
  induction l with
  | nil => rfl
  | cons x t ih =>
    simp only [List.map_cons, List.orderedInsert]
    by_cases h : a ≤ x
    · rw [if_pos (add_le_add_right h B), if_pos h, List.map_cons, List.map_cons]
    · rw [if_neg (fun hc => h (le_of_add_le_add_right hc)), if_neg h, List.map_cons, ih]

theorem insertionSort_map_add (B : ℝ) (l : List ℝ) :
    List.insertionSort (· ≤ ·) (l.map (· + B)) =
      (List.insertionSort (· ≤ ·) l).map (· + B) := by
  induction l with
  | nil => rfl
  | cons x t ih =>
    simp only [List.map_cons, List.insertionSort]
    rw [ih, orderedInsert_map_add]

theorem median_map_add (l : List ℝ) (hne : l ≠ []) (B : ℝ) :
    median (l.map (· + B)) = median l + B := by
  have hlen : 0 < l.length := List.length_pos.mpr hne
  have hsortlen : (List.insertionSort (· ≤ ·) l).length = l.length :=
    List.length_insertionSort (· ≤ ·) l
  have hmid : l.length / 2 < (List.insertionSort (· ≤ ·) l).length := by
    rw [hsortlen]; exact Nat.div_lt_self hlen one_lt_two
  have hmid1 : l.length / 2 - 1 < (List.insertionSort (· ≤ ·) l).length :=
    lt_of_le_of_lt (Nat.sub_le _ _) hmid
  unfold median
  rw [insertionSort_map_add, List.length_map]
  split
  · rw [List.getD_eq_getElem _ _ (by simpa using hmid), List.getElem_map,
      List.getD_eq_getElem _ _ hmid]
  · rw [List.getD_eq_getElem _ _ (by simpa using hmid1),
      List.getD_eq_getElem _ _ (by simpa using hmid), List.getElem_map, List.getElem_map,
      List.getD_eq_getElem _ _ hmid1, List.getD_eq_getElem _ _ hmid]
    ring

theorem magnet_axis_median_zero (base : List ℝ) (B : ℝ) (hne : base ≠ [])
    (h0 : median base = 0) :
    median ((base.map (· + B)).map (· - median (base.map (· + B)))) = 0 := by
  rw [median_map_add base hne B, h0, zero_add]
  have hcancel : (base.map (· + B)).map (· - B) = base := by
    rw [List.map_map]
    have hid : ((· - B) ∘ fun x : ℝ => x + B) = id := by
      funext v
      simp
    rw [hid, List.map_id]
  rw [hcancel, h0]

/-- C5: in `process` the accelerometer is first 0.5 Hz high-pass filtered
(`removeGravityBias`) and then 1g-normalised (`calibrateAccelerometer`),
and whenever the pre-scaling mean magnitude is positive the calibrated
stream has mean per-sample magnitude exactly `1`; magnetometer calibration
subtracts the per-axis median, so adding a constant bias per axis to
zero-median signals comes back with per-axis median `0`. -/
theorem calibration_normalisation (accData : AxisData) (sampleRate : ℝ)
    (hpos : 0 < mean (magnitudes (removeGravityBias accData sampleRate)))
    (base : AxisData) (b1 b2 b3 : ℝ)
    (hx : base.x ≠ []) (hy : base.y ≠ []) (hz : base.z ≠ [])
    (h0x : median base.x = 0) (h0y : median base.y = 0) (h0z : median base.z = 0) :
    mean (magnitudes (calibrateAccelerometer (removeGravityBias accData sampleRate))) = 1 ∧
    median ((calibrateMagnetometer
      ⟨base.x.map (· + b1), base.y.map (· + b2), base.z.map (· + b3)⟩).x) = 0 ∧
    median ((calibrateMagnetometer
      ⟨base.x.map (· + b1), base.y.map (· + b2), base.z.map (· + b3)⟩).y) = 0 ∧
    median ((calibrateMagnetometer
      ⟨base.x.map (· + b1), base.y.map (· + b2), base.z.map (· + b3)⟩).z) = 0 := by
  refine ⟨calibrateAccelerometer_mean_one _ hpos, ?_, ?_, ?_⟩
  · simpa only [calibrateMagnetometer] using magnet_axis_median_zero base.x b1 hx h0x
  · simpa only [calibrateMagnetometer] using magnet_axis_median_zero base.y b2 hy h0y
  · simpa only [calibrateMagnetometer] using magnet_axis_median_zero base.z b3 hz h0z

end FusionProcessor

namespace FusionProcessor

/-- Witness for C5: accelerometer axes `x = [0, 1]`, `y = z = [0, 0]` at
100 Hz have positive post-filter mean magnitude and calibrate to mean
magnitude `1`; the magnetometer axis `[-1, 0, 1] + 5` comes back with
median `0`. -/
theorem calibration_normalisation_witness :
    (0 < mean (magnitudes (removeGravityBias ⟨[0, 1], [0, 0], [0, 0]⟩ 100))) ∧
    median [(-1 : ℝ), 0, 1] = 0 ∧
    mean (magnitudes (calibrateAccelerometer
      (removeGravityBias ⟨[0, 1], [0, 0], [0, 0]⟩ 100))) = 1 ∧
    median ((calibrateMagnetometer
      ⟨[(-1 : ℝ), 0, 1].map (· + 5), [(-1 : ℝ), 0, 1].map (· + 6),
        [(-1 : ℝ), 0, 1].map (· + 7)⟩).x) = 0 := by
  have hpos : 0 < mean (magnitudes (removeGravityBias ⟨[0, 1], [0, 0], [0, 0]⟩ 100)) := by
    simp only [removeGravityBias, highPassFilter, hpGo, magnitudes, mean]
    norm_num [List.range_succ, List.map_cons, List.map_nil, List.map_append,
      List.foldl_cons, List.foldl_nil, List.foldl_append, List.getElem?_cons_zero,
      List.getElem?_cons_succ, Real.sqrt_zero, Real.sqrt_sq_eq_abs]
    refine ⟨Real.pi_ne_zero, ne_of_gt ?_⟩
    positivity
  have h0 : median [(-1 : ℝ), 0, 1] = 0 := by
    norm_num [median, List.insertionSort, List.orderedInsert,
      List.getD_cons_zero, List.getD_cons_succ]
  have h := calibration_normalisation ⟨[0, 1], [0, 0], [0, 0]⟩ 100 hpos
    ⟨[(-1 : ℝ), 0, 1], [(-1 : ℝ), 0, 1], [(-1 : ℝ), 0, 1]⟩ 5 6 7
    (by simp) (by simp) (by simp) h0 h0 h0
  exact ⟨hpos, h0, h.1, h.2.1⟩

end FusionProcessor
